import Mathlib

/-!
Shallow embedding of the wishlist Telegram bot (`src/api/bot.ts`) together
with proofs about its wizard state machine, notification fan-out, price
parsing and HTML escaping.

The bot is a stateless webhook handler over an external SQL store; each
inbound update is handled by one synchronous invocation that reads and
writes typed rows (households, members, categories, items, item_images,
pending_adds).  We embed the store as an explicit record of row lists and
each handler as a pure function `Store → Store × Effects`, where
`Effects` records the messages the handler sends.  Monetary amounts
(`numeric` in the schema) are embedded as `ℚ`.
-/

attribute [local semireducible] Rat.add Rat.mul Rat.inv Rat.sub

namespace Wishlist

/-- Item status as in the `Item` interface: `"active" | "done" | "deleted"`. -/
inductive Status where
  | active
  | done
  | deleted
deriving DecidableEq, Repr

/-- Wizard stage as in the `PendingAdd` interface: `"title" | "category" | "price"`. -/
inductive Stage where
  | title
  | category
  | price
deriving DecidableEq, Repr

/-- The `Member` interface (bot.ts lines 23-28). -/
structure Member where
  id : String
  telegram_user_id : Nat
  name : Option String
  household_id : Option String
deriving DecidableEq, Repr

/-- The `Household` interface (bot.ts lines 30-36); `created_at` is not
modelled, no verified property depends on it. -/
structure Household where
  id : String
  name : Option String
  budget_uah : ℚ
  invite_code : String
deriving DecidableEq, Repr

/-- The `Category` interface (bot.ts lines 38-43). -/
structure Category where
  id : Nat
  household_id : String
  name : String
  slug : String
deriving DecidableEq, Repr

/-- The `Item` interface (bot.ts lines 45-55).  The `created_at` /
`updated_at` timestamps are not modelled: they only influence display
order (`order by created_at desc`), which no verified property depends
on. -/
structure Item where
  id : String
  household_id : String
  category_id : Option Nat
  title : String
  price_uah : ℚ
  status : Status
  created_by : Nat
deriving DecidableEq, Repr

/-- A row of `item_images` (schema in the repository's SQL file). -/
structure ItemImage where
  item_id : String
  file_id : String
deriving DecidableEq, Repr

/-- The `PendingAdd` interface (bot.ts lines 57-66).  `created_at` is kept
(as a logical tick) because the handler selects the latest draft by
`order by created_at desc limit 1`. -/
structure PendingAdd where
  id : String
  user_id : Nat
  household_id : String
  stage : Stage
  title : Option String
  photo_file_id : Option String
  item_id : Option String
  created_at : Nat
deriving DecidableEq, Repr

/-- `DEFAULT_CATEGORIES` (bot.ts lines 68-78), as (name, slug) pairs. -/
def DEFAULT_CATEGORIES : List (String × String) :=
  [ ("Места куда идти с деньгами", "paid_places")
  , ("бесплатные места", "free_places")
  , ("Ресторан", "restaurant")
  , ("Поездка", "trip")
  , ("Вещи", "things")
  , ("Косметика", "cosmetics")
  , ("Игры", "games")
  , ("Страйкбол", "airsoft")
  , ("Прочее", "other") ]

/-! ### Price parsing: `toPrice` (bot.ts lines 84-88)

```
const toPrice = (raw?: string) => {
  if (!raw) return null;
  const n = Number(raw.replace(/\s+/g, "").replace(",", "."));
  return Number.isFinite(n) ? Number(n.toFixed(2)) : null;
};
```

`replace(/\s+/g,"")` removes every whitespace character;
`replace(",", ".")` (string pattern) replaces only the FIRST comma.
`Number` is embedded for decimal string literals (optional sign, digits,
optional decimal point, optional exponent, empty string ↦ 0); exotic JS
forms (hex/octal/binary literals, `Infinity`) are all mapped to `none` -
for `Infinity` this coincides with the source because `Number.isFinite`
rejects it there.  `toFixed(2)` is embedded as rounding to two decimal
places. -/

/-- `raw.replace(/\s+/g, "")`: drop all whitespace characters. -/
def stripWhitespace (s : String) : String :=
  ⟨s.toList.filter (fun c => !c.isWhitespace)⟩

/-- JS `String.prototype.trim()`: drop whitespace from both ends. -/
def jsTrim (s : String) : String :=
  ⟨((s.toList.dropWhile Char.isWhitespace).reverse.dropWhile Char.isWhitespace).reverse⟩

/-- Whether `pre` is a prefix of `s` (character-list recursion). -/
def listPrefix : List Char → List Char → Bool
  | [], _ => true
  | _ :: _, [] => false
  | a :: as, b :: bs => a = b && listPrefix as bs

/-- JS `String.prototype.startsWith`. -/
def strStartsWith (s pre : String) : Bool :=
  listPrefix pre.toList s.toList

/-- JS `String.prototype.slice(0, n)` (used as `id.slice(0, 6)`). -/
def strTake (s : String) (n : Nat) : String :=
  ⟨s.toList.take n⟩

/-- `.replace(",", ".")` with a string pattern: replace only the first comma. -/
def replaceFirstComma : List Char → List Char
  | [] => []
  | c :: cs => if c = ',' then '.' :: cs else c :: replaceFirstComma cs

/-- Numeric value of a digit list (msd first). -/
def digitsVal (ds : List Char) : Nat :=
  ds.foldl (fun a c => a * 10 + (c.toNat - 48)) 0

/-- Mantissa part of a JS decimal literal: `digits`, `digits.digits`,
`.digits` or `digits.` (at least one digit in total). -/
def parseMantissa (cs : List Char) : Option ℚ :=
  let ip := cs.takeWhile (fun c => c.isDigit)
  let rest := cs.dropWhile (fun c => c.isDigit)
  match rest with
  | [] => if ip.isEmpty then none else some (digitsVal ip : ℚ)
  | '.' :: fp =>
      if fp.all (fun c => c.isDigit) && !(ip.isEmpty && fp.isEmpty) then
        some ((digitsVal ip : ℚ) + (digitsVal fp : ℚ) / ((10 : ℚ) ^ fp.length))
      else none
  | _ => none

/-- Signed decimal integer (used for the exponent part). -/
def parseSignedInt (cs : List Char) : Option ℤ :=
  match cs with
  | '-' :: ds => if ds.all (fun c => c.isDigit) && !ds.isEmpty then some (-(digitsVal ds : ℤ)) else none
  | '+' :: ds => if ds.all (fun c => c.isDigit) && !ds.isEmpty then some (digitsVal ds : ℤ) else none
  | ds => if ds.all (fun c => c.isDigit) && !ds.isEmpty then some (digitsVal ds : ℤ) else none

/-- Apply a base-10 exponent to a rational. -/
def applyExp (q : ℚ) (e : ℤ) : ℚ :=
  if 0 ≤ e then q * ((10 : ℚ) ^ e.toNat) else q / ((10 : ℚ) ^ (-e).toNat)

/-- Unsigned part of a JS decimal literal, with optional exponent. -/
def parseUnsigned (cs : List Char) : Option ℚ :=
  let mant := cs.takeWhile (fun c => c ≠ 'e' && c ≠ 'E')
  let rest := cs.dropWhile (fun c => c ≠ 'e' && c ≠ 'E')
  match rest with
  | [] => parseMantissa mant
  | _ :: etail =>
      match parseMantissa mant, parseSignedInt etail with
      | some m, some e => some (applyExp m e)
      | _, _ => none

/-- JS `Number(s)` on a whitespace-free string, restricted to finite
decimal results: `""` is `0`; an optional sign precedes the literal;
anything else is `none` (NaN, or non-finite and thus rejected by the
`Number.isFinite` guard in `toPrice`). -/
def jsNumber (s : String) : Option ℚ :=
  match s.toList with
  | [] => some 0
  | '-' :: cs => (parseUnsigned cs).map (fun q => -q)
  | '+' :: cs => parseUnsigned cs
  | cs => parseUnsigned cs

/-- Floor of a rational, computed on its normalized representation. -/
def ratFloor (q : ℚ) : ℤ :=
  Int.fdiv q.num q.den

/-- `n.toFixed(2)` then `Number(...)`: round to two decimal places. -/
def toFixed2 (q : ℚ) : ℚ :=
  ((ratFloor (q * 100 + 1/2) : ℤ) : ℚ) / 100

/-- `toPrice` (bot.ts lines 84-88).  The `if (!raw) return null` guard
fires on the empty string (falsy in JS). -/
def toPrice (raw : String) : Option ℚ :=
  if raw = "" then none
  else (jsNumber ⟨replaceFirstComma (stripWhitespace raw).toList⟩).map toFixed2

/-! ### HTML escaping and item rendering (bot.ts lines 90-95) -/

/-- The apostrophe character (code point 39). -/
def aposChar : Char := Char.ofNat 39

/-- Per-character replacement of `escapeHtml`'s regex character class:
`& < > " '` become `&amp; &lt; &gt; &quot; &#39;`. -/
def escChar (c : Char) : List Char :=
  if c = '&' then ['&', 'a', 'm', 'p', ';']
  else if c = '<' then ['&', 'l', 't', ';']
  else if c = '>' then ['&', 'g', 't', ';']
  else if c = '"' then ['&', 'q', 'u', 'o', 't', ';']
  else if c = aposChar then ['&', '#', '3', '9', ';']
  else [c]

/-- `escapeHtml` (bot.ts line 92): global replacement of `[&<>"']` by the
corresponding HTML entity. -/
def escapeHtml (s : String) : String :=
  ⟨s.toList.flatMap escChar⟩

/-- The non-breaking space used by `fmtMoney` and `toLocaleString`. -/
def nbsp : Char := Char.ofNat 160

/-- Group a reversed digit list in threes with `nbsp` separators. -/
def groupRev : List Char → Nat → List Char
  | [], _ => []
  | c :: cs, k => if k = 3 then nbsp :: c :: groupRev cs 1 else c :: groupRev cs (k + 1)

/-- Render a natural number with ru-locale thousands grouping. -/
def groupedNat (n : Nat) : String :=
  ⟨(groupRev (toString n).toList.reverse 0).reverse⟩

/-- Strip trailing zeros of a fractional digit list. -/
def stripTrailingZeros (ds : List Char) : List Char :=
  (ds.reverse.dropWhile (fun c => c = '0')).reverse

/-- Left-pad a digit list with zeros to length `n`. -/
def padZeros (ds : List Char) (n : Nat) : List Char :=
  List.replicate (n - ds.length) '0' ++ ds

/-- `n.toLocaleString("ru-UA", { minimumFractionDigits: 0 })`: sign,
thousands groups separated by `nbsp`, decimal comma, at most three
fraction digits (the `Intl` default), trailing zeros dropped. -/
def localeRu (q : ℚ) : String :=
  let a : ℚ := |q|
  let scaled : ℤ := ratFloor (a * 1000 + 1/2)
  let ipart : Nat := (scaled / 1000).toNat
  let fpart : Nat := (scaled % 1000).toNat
  let fdigits := stripTrailingZeros (padZeros (toString fpart).toList 3)
  (if q < 0 then "-" else "") ++ groupedNat ipart ++
    (if fdigits.isEmpty then "" else "," ++ ⟨fdigits⟩)

/-- `fmtMoney` (bot.ts line 90): currency sign, ` `, locale-formatted
amount. -/
def fmtMoney (n : ℚ) : String :=
  "₴" ++ ⟨[nbsp]⟩ ++ localeRu n

/-- `buildItemLine` (bot.ts lines 94-95).  `it.price_uah ?` is JS
truthiness of a number: false exactly for `0`. -/
def buildItemLine (it : Item) : String :=
  "• " ++
    (if it.status = Status.done
      then "<s>" ++ escapeHtml it.title ++ "</s>"
      else escapeHtml it.title) ++
    (if it.price_uah ≠ 0 then " — " ++ fmtMoney it.price_uah else "") ++
    " (id:" ++ strTake it.id 6 ++ ")"

/-! ### The persistent store and handler effects

The Supabase database is embedded as lists of rows.  Row ids (`uuid` /
`bigserial` defaults) are modelled by a fresh-id counter; `created_at`
defaults (`now()`) by a logical clock that advances on every insert
carrying a timestamp the code later orders by. -/

/-- The whole persistent store. -/
structure Store where
  members : List Member
  households : List Household
  categories : List Category
  items : List Item
  item_images : List ItemImage
  pending_adds : List PendingAdd
  nextId : Nat
  now : Nat
deriving DecidableEq, Repr

/-- The store with no rows. -/
def emptyStore : Store :=
  { members := [], households := [], categories := [], items := []
  , item_images := [], pending_adds := [], nextId := 0, now := 0 }

/-- Fresh row id drawn from the id counter. -/
def freshId (s : Store) : String := toString s.nextId

/-- Outbound side effects of one handler invocation: `replies` are the
texts sent back to the acting chat (`ctx.reply` / `editMessageText` /
callback toasts); `sent` are the `bot.api.sendMessage` fan-out messages,
as (recipient telegram user id, text). -/
structure Effects where
  replies : List String
  sent : List (Nat × String)
deriving DecidableEq, Repr

/-- No side effects. -/
def noEffects : Effects := { replies := [], sent := [] }

/-- One reply to the actor, no fan-out. -/
def replyOnly (t : String) : Effects := { replies := [t], sent := [] }

/-- An inbound chat message as the wizard handler sees it: optional
`text`, optional `caption`, attached photo sizes (file ids, the
best-resolution one last, as delivered by Telegram). -/
structure Msg where
  text : Option String
  caption : Option String
  photo : List String
deriving DecidableEq, Repr

/-- The command guard of the message handler (bot.ts lines 305-306):
`const text = ctx.message.text || ""; if (text && text.startsWith("/"))`.
Only the `text` field is consulted — never the caption. -/
def isCommandText (msg : Msg) : Bool :=
  let text := msg.text.getD ""
  (!(text == "")) && strStartsWith text "/"

/-- The title candidate of the title stage (bot.ts line 310):
`ctx.message.caption || text || ""` (JS `||` takes the first nonempty). -/
def wizardTitle (msg : Msg) : String :=
  let text := msg.text.getD ""
  let caption := msg.caption.getD ""
  if caption ≠ "" then caption else text

/-- The status flip of the `toggle:` callback (bot.ts line 603):
`item.status === "done" ? "active" : "done"`. -/
def statusToggle (st : Status) : Status :=
  if st = Status.done then Status.active else Status.done

/-! ### Row-list operations on `pending_adds` -/

/-- `delete().eq("user_id", uid)` on `pending_adds` (bot.ts line 268). -/
def purgeUser (uid : Nat) (l : List PendingAdd) : List PendingAdd :=
  l.filter (fun p => decide (p.user_id ≠ uid))

/-- `update({...}).eq("id", pid)` on `pending_adds`. -/
def updatePendingById (pid : String) (f : PendingAdd → PendingAdd)
    (l : List PendingAdd) : List PendingAdd :=
  l.map (fun p => if p.id = pid then f p else p)

/-- `delete().eq("id", pid)` on `pending_adds` (bot.ts line 344). -/
def deletePendingById (pid : String) (l : List PendingAdd) : List PendingAdd :=
  l.filter (fun p => decide (p.id ≠ pid))

/-- `delete().eq("item_id", iid)` on `pending_adds` (bot.ts line 525). -/
def deletePendingByItem (iid : String) (l : List PendingAdd) : List PendingAdd :=
  l.filter (fun p => decide (p.item_id ≠ some iid))

/-- `upsert({...}, { onConflict: "user_id" })` on `pending_adds`
(bot.ts lines 537-540): update the row with that `user_id` in place
(keeping its id, title, photo and `created_at`) when one exists,
otherwise insert the new row. -/
def upsertPendingByUser (uid : Nat) (f : PendingAdd → PendingAdd)
    (mk : PendingAdd) (l : List PendingAdd) : List PendingAdd :=
  if l.any (fun p => decide (p.user_id = uid)) then
    l.map (fun p => if p.user_id = uid then f p else p)
  else l ++ [mk]

/-- The field update of the title stage (bot.ts lines 316-320): store the
trimmed title and staged photo, advance to `category`. -/
def titleUpdate (title : String) (photo : Option String) (p : PendingAdd) : PendingAdd :=
  { p with title := some title, photo_file_id := photo, stage := Stage.category }

/-- The field update of the `addcat:` callback (bot.ts line 500): advance
to `price` and link the created item. -/
def advanceToPrice (iid : String) (p : PendingAdd) : PendingAdd :=
  { p with stage := Stage.price, item_id := some iid }

/-- `order by created_at desc limit 1`: the latest element of a selection. -/
def latestPending (l : List PendingAdd) : Option PendingAdd :=
  l.foldl (fun acc p =>
    match acc with
    | none => some p
    | some q => if q.created_at < p.created_at then some p else some q) none

/-- The open draft the message handler acts on (bot.ts lines 294-300). -/
def pendingFor (l : List PendingAdd) (uid : Nat) : Option PendingAdd :=
  latestPending (l.filter (fun p => decide (p.user_id = uid)))

/-! ### Directory helpers -/

/-- `getOrCreateMember` (bot.ts lines 108-117): look the member up by
telegram user id, creating a row with `household_id = null` when absent. -/
def getOrCreateMember (uid : Nat) (name : Option String) (s : Store) :
    Member × Store :=
  match s.members.find? (fun m => decide (m.telegram_user_id = uid)) with
  | some m => (m, s)
  | none =>
      let m : Member := { id := freshId s, telegram_user_id := uid
                        , name := name, household_id := none }
      (m, { s with members := s.members ++ [m], nextId := s.nextId + 1 })

/-- Build the category rows
`DEFAULT_CATEGORIES.map(c => ({ ...c, household_id }))`, with consecutive
`bigserial` ids starting at `base`. -/
def seedCats (hid : String) (base : Nat) : List (String × String) → List Category
  | [] => []
  | (n, sl) :: rest =>
      { id := base, household_id := hid, name := n, slug := sl }
        :: seedCats hid (base + 1) rest

/-- `ensureCategories` (bot.ts lines 119-123): seed the nine defaults
unless some category row already exists for the household. -/
def ensureCategories (hid : String) (s : Store) : Store :=
  if s.categories.any (fun c => decide (c.household_id = hid)) then s
  else
    let seeded := s.categories ++ seedCats hid s.nextId DEFAULT_CATEGORIES
    { s with categories := seeded, nextId := s.nextId + DEFAULT_CATEGORIES.length }

/-- `otherHouseholdMembers` (bot.ts lines 125-129). -/
def otherHouseholdMembers (hid : String) (me : Nat) (s : Store) : List Member :=
  s.members.filter (fun m =>
    decide (m.household_id = some hid ∧ m.telegram_user_id ≠ me))

/-- `pad` (bot.ts lines 97-100). -/
def pad (v : String) (len : Nat) : String :=
  let s := if v.length > len then strTake v (len - 1) ++ "…" else v
  s ++ ⟨List.replicate (len - s.length) ' '⟩

/-- Category display name for `/list` (bot.ts line 379). -/
def catName (s : Store) (cid : Option Nat) : String :=
  match cid with
  | none => "-"
  | some c => (((s.categories.find? (fun k => decide (k.id = c))).map
      (fun k => k.name)).getD "-")

/-! ### Handlers

Each bot handler becomes a pure function `... → Store → Store × Effects`.
The acting user is passed as (telegram user id, display-name hint) — the
data `getOrCreateMember` reads off `ctx.from`. -/

/-- The standard missing-household reply. -/
def needHousehold : Effects :=
  replyOnly "Сначала /create_household или /join_household"

/-- `bot.command("add")` (bot.ts lines 263-284): purge the member's stale
drafts, insert a fresh draft at stage `title`, prompt for the title. -/
def addCommand (uid : Nat) (uname : Option String) (s : Store) :
    Store × Effects :=
  let ms := getOrCreateMember uid uname s
  let me := ms.1
  let s := ms.2
  match me.household_id with
  | none => (s, needHousehold)
  | some hh =>
      let s1 := { s with pending_adds := purgeUser me.telegram_user_id s.pending_adds }
      let draft : PendingAdd :=
        { id := freshId s1, user_id := me.telegram_user_id, household_id := hh
        , stage := Stage.title, title := none, photo_file_id := none
        , item_id := none, created_at := s1.now }
      let s2 := { s1 with pending_adds := s1.pending_adds ++ [draft], nextId := s1.nextId + 1, now := s1.now + 1 }
      (s2, replyOnly "Введи название хотелки (можно приложить фото):")

/-- `bot.on("message")` (bot.ts lines 287-351): the wizard stage handler.
No open draft ⇒ no-op; a nonempty `text` starting with `/` falls through
to command dispatch; stage `title` stores title/photo on the draft and
advances to `category`; stage `price` with a linked item parses the price,
writes it, and consumes the draft; any other combination does nothing. -/
def messageHandler (uid : Nat) (uname : Option String) (msg : Msg)
    (s : Store) : Store × Effects :=
  let ms := getOrCreateMember uid uname s
  let me := ms.1
  let s := ms.2
  match pendingFor s.pending_adds me.telegram_user_id with
  | none => (s, noEffects)
  | some pending =>
      let text := msg.text.getD ""
      if isCommandText msg then (s, noEffects)
      else if pending.stage = Stage.title then
        let title := wizardTitle msg
        if jsTrim title = "" then
          (s, replyOnly "Пустое название. Напиши текстом, например: «Кроссовки Nike».")
        else
          let upd := titleUpdate (jsTrim title) msg.photo.getLast?
          let s1 := { s with pending_adds := updatePendingById pending.id upd s.pending_adds }
          (s1, replyOnly ("Хотелка: <b>" ++ escapeHtml (jsTrim title) ++ "</b>\nВыбери категорию:"))
      else if pending.stage = Stage.price ∧ pending.item_id ≠ none then
        let itemId := pending.item_id.getD ""
        match toPrice text with
        | none => (s, replyOnly "Не понял цену. Пример: 1500 или 1,500")
        | some num =>
            let newItems := s.items.map
              (fun it => if it.id = itemId then { it with price_uah := num } else it)
            let s1 := { s with items := newItems }
            let item? := s1.items.find? (fun it => decide (it.id = itemId))
            let s2 := { s1 with pending_adds := deletePendingById pending.id s1.pending_adds }
            match item? with
            | some it => (s2, replyOnly ("Готово: " ++ buildItemLine it))
            | none => (s2, noEffects)
      else (s, noEffects)

/-- The `addcat:` callback (bot.ts lines 470-513): create the item from
the draft, attach the staged photo, advance the draft to stage `price`,
and fan the "new item" notification out to the co-members.  `catArg` is
the parsed button payload (`none` = "skip").  `sendFails` says which
recipients' `sendMessage` calls throw; the loop has no try/catch, so the
first failure aborts the rest of the handler (the preceding row writes
remain committed). -/
def addcatCallback (uid : Nat) (uname : Option String) (pendingId : String)
    (catArg : Option Nat) (sendFails : Nat → Bool) (s : Store) :
    Store × Effects :=
  let ms := getOrCreateMember uid uname s
  let me := ms.1
  let s := ms.2
  match s.pending_adds.find? (fun p => decide (p.id = pendingId)) with
  | none => (s, replyOnly "Черновик не найден. Начните /add заново.")
  | some pend =>
      if pend.user_id ≠ me.telegram_user_id then
        (s, replyOnly "Это не ваш черновик")
      else
        match pend.title with
        | none => (s, replyOnly "Ошибка при создании")
        | some t =>
            let item : Item :=
              { id := freshId s, household_id := pend.household_id
              , category_id := catArg, title := t, price_uah := 0
              , status := Status.active, created_by := pend.user_id }
            let s1 := { s with items := s.items ++ [item], nextId := s.nextId + 1 }
            let s2 := match pend.photo_file_id with
              | some fid =>
                  let img : ItemImage := { item_id := item.id, file_id := fid }
                  { s1 with item_images := s1.item_images ++ [img] }
              | none => s1
            let s3 := { s2 with pending_adds := updatePendingById pendingId (advanceToPrice item.id) s2.pending_adds }
            let others := otherHouseholdMembers item.household_id pend.user_id s3
            let notif := "➕ Новая хотелка: <b>" ++ escapeHtml item.title ++ "</b>"
            let sent := (others.takeWhile (fun m => !sendFails m.telegram_user_id)).map
              (fun m => (m.telegram_user_id, notif))
            if others.any (fun m => sendFails m.telegram_user_id) then
              (s3, { replies := [], sent := sent })
            else
              (s3, { replies := ["Добавлено: " ++ buildItemLine item ++ "\n\nТеперь укажи цену:"]
                   , sent := sent })

/-- The `price:` quick-pick callback (bot.ts lines 516-532): write the
picked price unless the payload is `skip` or unparseable, re-read the
item, delete any draft linked to it. -/
def priceCallback (itemId : String) (val : String) (s : Store) :
    Store × Effects :=
  let s1 :=
    if val = "skip" then s
    else
      match toPrice val with
      | some num =>
          let newItems := s.items.map
            (fun it => if it.id = itemId then { it with price_uah := num } else it)
          { s with items := newItems }
      | none => s
  let item? := s1.items.find? (fun it => decide (it.id = itemId))
  let s2 := { s1 with pending_adds := deletePendingByItem itemId s1.pending_adds }
  match item? with
  | some it => (s2, { replies := ["Готово: " ++ buildItemLine it, "Сохранено"], sent := [] })
  | none => (s2, noEffects)

/-- The `pricemanual:` callback (bot.ts lines 535-543): upsert a draft at
stage `price` keyed on the user id (with `household_id: ""`), then prompt
for a typed price. -/
def pricemanualCallback (uid : Nat) (itemId : String) (s : Store) :
    Store × Effects :=
  let mk : PendingAdd :=
    { id := freshId s, user_id := uid, household_id := ""
    , stage := Stage.price, title := none, photo_file_id := none
    , item_id := some itemId, created_at := s.now }
  let upd := fun (p : PendingAdd) =>
    { p with household_id := "", stage := Stage.price, item_id := some itemId }
  let newPending := upsertPendingByUser uid upd mk s.pending_adds
  let s1 := { s with pending_adds := newPending, nextId := s.nextId + 1, now := s.now + 1 }
  (s1, replyOnly "Введи цену числом (пример: 1500 или 1,500):")

/-- The `toggle:` callback (bot.ts lines 599-610): flip `done` to
`active` and anything else to `done`. -/
def toggleCallback (id : String) (s : Store) : Store × Effects :=
  match s.items.find? (fun it => decide (it.id = id)) with
  | none => (s, replyOnly "Не найдено")
  | some item =>
      let newStatus := statusToggle item.status
      let newItems := s.items.map
        (fun it => if it.id = id then { it with status := newStatus } else it)
      let s1 := { s with items := newItems }
      (s1, replyOnly ("Обновлено: " ++ buildItemLine { item with status := newStatus }))

/-- The `del:` callback (bot.ts lines 612-617): soft delete — set the
status to `deleted`, keep the row. -/
def delCallback (id : String) (s : Store) : Store × Effects :=
  let newItems := s.items.map
    (fun it => if it.id = id then { it with status := Status.deleted } else it)
  ({ s with items := newItems }, replyOnly "Удалено")

/-- The `hintprice:` callback (bot.ts lines 619-625): reply only. -/
def hintpriceCallback (s : Store) : Store × Effects :=
  (s, replyOnly "Измени цену: отправь число, например \"1500\".\n(или нажми на кнопки цены)")

/-- The rows `/list` fetches (bot.ts lines 363-368): the household's
items with `status ≠ deleted`, newest first (`order by created_at desc`;
rows are appended in creation order, so this is the reverse). -/
def listRows (s : Store) (hid : String) : List Item :=
  (s.items.filter (fun it =>
    decide (it.household_id = hid ∧ it.status ≠ Status.deleted))).reverse

/-- One `/list` table line (bot.ts lines 378-383). -/
def listLine (s : Store) (i : Nat) (it : Item) : String :=
  let cat := catName s it.category_id
  let price := if it.price_uah ≠ 0 then fmtMoney it.price_uah else "-"
  let name := if it.status = Status.done then escapeHtml it.title ++ "✓" else escapeHtml it.title
  (toString (i + 1)) ++ ". " ++ pad name 28 ++ "  " ++ pad cat 14 ++ "  " ++ pad price 10

/-- `bot.command("list")` (bot.ts lines 354-392). -/
def listCommand (uid : Nat) (uname : Option String) (s : Store) :
    Store × Effects :=
  let ms := getOrCreateMember uid uname s
  let me := ms.1
  let s := ms.2
  match me.household_id with
  | none => (s, needHousehold)
  | some hh =>
      let rows := listRows s hh
      if rows.isEmpty then (s, replyOnly "Пусто. Добавьте через /add")
      else
        let header := "#  " ++ pad "Название" 28 ++ "  " ++ pad "Категория" 14 ++ "  " ++ pad "Цена" 10
        let body := ((List.range (min rows.length 60)).zip (rows.take 60)).map
          (fun ir => listLine s ir.1 ir.2)
        let extra := if rows.length > 60
          then ["... и ещё " ++ toString (rows.length - 60) ++ " позиций"] else []
        (s, replyOnly ("<pre>" ++ String.intercalate "\n" (header :: body ++ extra) ++ "</pre>"))

/-- `bot.command("create_household")` (bot.ts lines 209-220).  The random
invite code is passed in as `invite`. -/
def createHouseholdCmd (uid : Nat) (uname : Option String)
    (hname : Option String) (invite : String) (s : Store) : Store × Effects :=
  let ms := getOrCreateMember uid uname s
  let me := ms.1
  let s := ms.2
  match me.household_id with
  | some _ => (s, replyOnly "Вы уже в домохозяйстве.")
  | none =>
      let hh : Household :=
        { id := freshId s, name := hname, budget_uah := 0, invite_code := invite }
      let s1 := { s with households := s.households ++ [hh], nextId := s.nextId + 1 }
      let newMembers := s1.members.map
        (fun m => if m.telegram_user_id = me.telegram_user_id
          then { m with household_id := some hh.id } else m)
      let s2 := { s1 with members := newMembers }
      let s3 := ensureCategories hh.id s2
      (s3, replyOnly ("Код приглашения: <code>" ++ invite ++ "</code>\nУ Марины: /join_household " ++ invite))

/-- `bot.command("join_household")` (bot.ts lines 222-233). -/
def joinHouseholdCmd (uid : Nat) (uname : Option String) (codeArg : String)
    (s : Store) : Store × Effects :=
  let code := (jsTrim codeArg).toUpper
  if code = "" then (s, replyOnly "Укажите код: /join_household ABC123")
  else
    let ms := getOrCreateMember uid uname s
    let me := ms.1
    let s := ms.2
    match me.household_id with
    | some _ => (s, replyOnly "Вы уже в домохозяйстве.")
    | none =>
        match s.households.find? (fun h => decide (h.invite_code = code)) with
        | none => (s, replyOnly "Неверный код.")
        | some hh =>
            let newMembers := s.members.map
              (fun m => if m.telegram_user_id = me.telegram_user_id
                then { m with household_id := some hh.id } else m)
            let s1 := { s with members := newMembers }
            let s2 := ensureCategories hh.id s1
            (s2, replyOnly "Вы присоединились! Используйте /add и /list")

/-- `bot.command("budget")` (bot.ts lines 244-259). -/
def budgetCmd (uid : Nat) (uname : Option String) (argRaw : String)
    (s : Store) : Store × Effects :=
  let ms := getOrCreateMember uid uname s
  let me := ms.1
  let s := ms.2
  match me.household_id with
  | none => (s, needHousehold)
  | some hh =>
      let arg := jsTrim argRaw
      if arg = "" then
        let budget := (((s.households.find? (fun h => decide (h.id = hh))).map
          (fun h => h.budget_uah)).getD 0)
        let total := (s.items.filter (fun it =>
          decide (it.household_id = hh ∧ it.status = Status.active))).foldl
          (fun acc it => acc + it.price_uah) 0
        (s, replyOnly ("Бюджет: " ++ fmtMoney budget ++ "\nАктивные: " ++ fmtMoney total
          ++ "\nОстаток: " ++ fmtMoney (budget - total)))
      else
        match toPrice arg with
        | none => (s, replyOnly "Введите сумму: /budget 5000")
        | some num =>
            let newHouseholds := s.households.map
              (fun h => if h.id = hh then { h with budget_uah := num } else h)
            ({ s with households := newHouseholds }
            , replyOnly ("Новый бюджет: " ++ fmtMoney num))

/-- `bot.command("setprice")` (bot.ts lines 629-640); `id`/`priceStr` are
the two whitespace-split pieces of the argument. -/
def setpriceCmd (uid : Nat) (uname : Option String) (id priceStr : String)
    (s : Store) : Store × Effects :=
  let ms := getOrCreateMember uid uname s
  let me := ms.1
  let s := ms.2
  match me.household_id with
  | none => (s, needHousehold)
  | some hh =>
      if id = "" ∨ priceStr = "" then (s, replyOnly "Формат: /setprice <id> <цена>")
      else
        match toPrice priceStr with
        | none => (s, replyOnly "Неверная цена.")
        | some num =>
            match s.items.find? (fun it => decide (it.id = id)) with
            | none => (s, replyOnly "Не найдено")
            | some item =>
                if item.household_id ≠ hh then (s, replyOnly "Не найдено")
                else
                  let newItems := s.items.map
                    (fun it => if it.id = id then { it with price_uah := num } else it)
                  ({ s with items := newItems }
                  , replyOnly ("Цена обновлена: " ++ fmtMoney num))

/-- A read-only handler that only resolves the member and replies
(`/start`, `/categories`, `/list_photos`, the `cat:` menu callbacks):
the store is unchanged except for the possible lazy member creation. -/
def readOnlyHandler (uid : Nat) (uname : Option String) (s : Store) :
    Store × Effects :=
  ((getOrCreateMember uid uname s).2, noEffects)

/-! ### The update loop

One inbound update is one handler invocation.  `Op` enumerates every
handler of bot.ts that can run on an update (read-only handlers —
`/ping`, `/help`, `/start`, `/categories`, `/list_photos`, the `cat:`
menu callbacks and `hintprice:` — are collapsed into `readOnly` /
`hintprice`, since they never write rows). -/

inductive Op where
  | readOnly (uid : Nat) (uname : Option String)
  | createHousehold (uid : Nat) (uname hname : Option String) (invite : String)
  | joinHousehold (uid : Nat) (uname : Option String) (code : String)
  | budget (uid : Nat) (uname : Option String) (arg : String)
  | add (uid : Nat) (uname : Option String)
  | message (uid : Nat) (uname : Option String) (msg : Msg)
  | listCmd (uid : Nat) (uname : Option String)
  | addcat (uid : Nat) (uname : Option String) (pendingId : String)
      (cat : Option Nat) (sendFails : Nat → Bool)
  | price (itemId val : String)
  | pricemanual (uid : Nat) (itemId : String)
  | toggle (id : String)
  | del (id : String)
  | hintprice
  | setprice (uid : Nat) (uname : Option String) (id priceStr : String)

/-- Dispatch one inbound update to its handler. -/
def applyOp (s : Store) : Op → Store × Effects
  | Op.readOnly uid un => readOnlyHandler uid un s
  | Op.createHousehold uid un hn inv => createHouseholdCmd uid un hn inv s
  | Op.joinHousehold uid un code => joinHouseholdCmd uid un code s
  | Op.budget uid un arg => budgetCmd uid un arg s
  | Op.add uid un => addCommand uid un s
  | Op.message uid un msg => messageHandler uid un msg s
  | Op.listCmd uid un => listCommand uid un s
  | Op.addcat uid un pid cat sf => addcatCallback uid un pid cat sf s
  | Op.price iid val => priceCallback iid val s
  | Op.pricemanual uid iid => pricemanualCallback uid iid s
  | Op.toggle id => toggleCallback id s
  | Op.del id => delCallback id s
  | Op.hintprice => hintpriceCallback s
  | Op.setprice uid un id pr => setpriceCmd uid un id pr s

/-- Store reached after one update. -/
def step (s : Store) (op : Op) : Store := (applyOp s op).1

/-- Store reached from the empty store by a sequence of updates. -/
def run (ops : List Op) : Store := ops.foldl step emptyStore

/-- At most one live draft per member: all rows of `pending_adds` carry
pairwise distinct `user_id`s. -/
def UsersOk (l : List PendingAdd) : Prop :=
  l.Pairwise (fun a b => a.user_id ≠ b.user_id)

end Wishlist

namespace Wishlist

theorem usersOk_filter (f : PendingAdd → Bool) {l : List PendingAdd} (h : UsersOk l) :
    UsersOk (l.filter f) :=
  List.Pairwise.sublist (List.filter_sublist l) h

theorem usersOk_map {f : PendingAdd → PendingAdd}
    (hf : ∀ p, (f p).user_id = p.user_id) {l : List PendingAdd} (h : UsersOk l) :
    UsersOk (l.map f) := by
  unfold UsersOk at *
  rw [List.pairwise_map]
  exact h.imp (fun {a b} hab => by simpa [hf] using hab)

theorem usersOk_purge_append (uid : Nat) (mk : PendingAdd) (hmk : mk.user_id = uid)
    {l : List PendingAdd} (h : UsersOk l) : UsersOk (purgeUser uid l ++ [mk]) := by
  unfold UsersOk purgeUser at *
  rw [List.pairwise_append]
  refine ⟨List.Pairwise.sublist (List.filter_sublist l) h, by simp, ?_⟩
  intro x hx y hy
  rw [List.mem_filter] at hx
  simp only [List.mem_singleton] at hy
  subst hy
  rw [hmk]
  simpa using hx.2

theorem usersOk_upsert (uid : Nat) (f : PendingAdd → PendingAdd) (mk : PendingAdd)
    (hf : ∀ p, (f p).user_id = p.user_id) (hmk : mk.user_id = uid)
    {l : List PendingAdd} (h : UsersOk l) : UsersOk (upsertPendingByUser uid f mk l) := by
  unfold upsertPendingByUser
  split
  · apply usersOk_map _ h
    intro p
    by_cases hp : p.user_id = uid <;> simp [hp, hf]
  · rename_i hany
    unfold UsersOk
    rw [List.pairwise_append]
    refine ⟨h, by simp, ?_⟩
    intro x hx y hy
    simp only [List.mem_singleton] at hy
    subst hy
    rw [hmk]
    intro hEq
    exact hany (List.any_eq_true.mpr ⟨x, hx, by simp [hEq]⟩)

theorem getOrCreate_pending (uid : Nat) (un : Option String) (s : Store) :
    ((getOrCreateMember uid un s).2).pending_adds = s.pending_adds := by
  unfold getOrCreateMember
  split <;> rfl

end Wishlist

namespace Wishlist

theorem usersOk_updatePendingById (pid : String) (f : PendingAdd → PendingAdd)
    (hf : ∀ p, (f p).user_id = p.user_id) {l : List PendingAdd} (h : UsersOk l) :
    UsersOk (updatePendingById pid f l) :=
  usersOk_map (fun p => by by_cases hp : p.id = pid <;> simp [hp, hf]) h

theorem usersOk_addCommand (uid : Nat) (un : Option String) (s : Store)
    (h : UsersOk s.pending_adds) : UsersOk ((addCommand uid un s).1).pending_adds := by
  simp only [addCommand]
  have hp := getOrCreate_pending uid un s
  split
  · simpa [hp] using h
  · simp only []
    rw [hp]
    refine usersOk_purge_append _ _ ?_ h
    rfl

theorem usersOk_messageHandler (uid : Nat) (un : Option String) (msg : Msg) (s : Store)
    (h : UsersOk s.pending_adds) : UsersOk ((messageHandler uid un msg s).1).pending_adds := by
  simp only [messageHandler]
  have hp := getOrCreate_pending uid un s
  repeat' split
  all_goals simp only [hp]
  all_goals first
    | exact h
    | (refine usersOk_updatePendingById _ _ (fun p => ?_) h; rfl)
    | exact usersOk_filter _ h

end Wishlist

namespace Wishlist

theorem ensureCategories_pending (hid : String) (s : Store) :
    (ensureCategories hid s).pending_adds = s.pending_adds := by
  unfold ensureCategories
  split <;> rfl

theorem usersOk_addcat (uid : Nat) (un : Option String) (pid : String)
    (cat : Option Nat) (sf : Nat → Bool) (s : Store)
    (h : UsersOk s.pending_adds) :
    UsersOk ((addcatCallback uid un pid cat sf s).1).pending_adds := by
  simp only [addcatCallback]
  have hp := getOrCreate_pending uid un s
  repeat' split
  all_goals simp only [hp]
  all_goals first
    | exact h
    | (refine usersOk_updatePendingById _ _ (fun p => ?_) h; rfl)

theorem usersOk_price (iid val : String) (s : Store)
    (h : UsersOk s.pending_adds) :
    UsersOk ((priceCallback iid val s).1).pending_adds := by
  simp only [priceCallback]
  repeat' split
  all_goals exact usersOk_filter _ h

theorem usersOk_pricemanual (uid : Nat) (iid : String) (s : Store)
    (h : UsersOk s.pending_adds) :
    UsersOk ((pricemanualCallback uid iid s).1).pending_adds := by
  simp only [pricemanualCallback]
  refine usersOk_upsert _ _ _ (fun p => ?_) ?_ h <;> rfl

theorem usersOk_createHousehold (uid : Nat) (un hn : Option String)
    (inv : String) (s : Store) (h : UsersOk s.pending_adds) :
    UsersOk ((createHouseholdCmd uid un hn inv s).1).pending_adds := by
  simp only [createHouseholdCmd]
  have hp := getOrCreate_pending uid un s
  repeat' split
  all_goals simp only [ensureCategories_pending, hp]
  all_goals exact h

theorem usersOk_joinHousehold (uid : Nat) (un : Option String) (code : String)
    (s : Store) (h : UsersOk s.pending_adds) :
    UsersOk ((joinHouseholdCmd uid un code s).1).pending_adds := by
  simp only [joinHouseholdCmd]
  have hp := getOrCreate_pending uid un s
  repeat' split
  all_goals simp only [ensureCategories_pending, hp]
  all_goals exact h

theorem usersOk_budget (uid : Nat) (un : Option String) (arg : String)
    (s : Store) (h : UsersOk s.pending_adds) :
    UsersOk ((budgetCmd uid un arg s).1).pending_adds := by
  simp only [budgetCmd]
  have hp := getOrCreate_pending uid un s
  repeat' split
  all_goals simp only [hp]
  all_goals exact h

theorem usersOk_setprice (uid : Nat) (un : Option String) (id pr : String)
    (s : Store) (h : UsersOk s.pending_adds) :
    UsersOk ((setpriceCmd uid un id pr s).1).pending_adds := by
  simp only [setpriceCmd]
  have hp := getOrCreate_pending uid un s
  repeat' split
  all_goals simp only [hp]
  all_goals exact h

theorem usersOk_listCommand (uid : Nat) (un : Option String) (s : Store)
    (h : UsersOk s.pending_adds) :
    UsersOk ((listCommand uid un s).1).pending_adds := by
  simp only [listCommand]
  have hp := getOrCreate_pending uid un s
  repeat' split
  all_goals simp only [hp]
  all_goals exact h

theorem usersOk_toggle (id : String) (s : Store) (h : UsersOk s.pending_adds) :
    UsersOk ((toggleCallback id s).1).pending_adds := by
  simp only [toggleCallback]
  repeat' split
  all_goals exact h

theorem usersOk_step (s : Store) (op : Op) (h : UsersOk s.pending_adds) :
    UsersOk (step s op).pending_adds := by
  cases op with
  | readOnly uid un =>
      simpa [step, applyOp, readOnlyHandler, getOrCreate_pending] using h
  | createHousehold uid un hn inv => exact usersOk_createHousehold uid un hn inv s h
  | joinHousehold uid un code => exact usersOk_joinHousehold uid un code s h
  | budget uid un arg => exact usersOk_budget uid un arg s h
  | add uid un => exact usersOk_addCommand uid un s h
  | message uid un msg => exact usersOk_messageHandler uid un msg s h
  | listCmd uid un => exact usersOk_listCommand uid un s h
  | addcat uid un pid cat sf => exact usersOk_addcat uid un pid cat sf s h
  | price iid val => exact usersOk_price iid val s h
  | pricemanual uid iid => exact usersOk_pricemanual uid iid s h
  | toggle id => exact usersOk_toggle id s h
  | del id => simpa [step, applyOp, delCallback] using h
  | hintprice => simpa [step, applyOp, hintpriceCallback] using h
  | setprice uid un id pr => exact usersOk_setprice uid un id pr s h

theorem usersOk_foldl (ops : List Op) (s : Store) (h : UsersOk s.pending_adds) :
    UsersOk ((ops.foldl step s).pending_adds) := by
  induction ops generalizing s with
  | nil => exact h
  | cons op rest ih => exact ih _ (usersOk_step s op h)

end Wishlist

namespace Wishlist

theorem getOrCreate_uid (uid : Nat) (un : Option String) (s : Store) :
    ((getOrCreateMember uid un s).1).telegram_user_id = uid := by
  unfold getOrCreateMember
  split
  · rename_i m hm
    have h2 := List.find?_some hm
    simpa using h2
  · rfl

theorem getOrCreate_categories (uid : Nat) (un : Option String) (s : Store) :
    ((getOrCreateMember uid un s).2).categories = s.categories := by
  unfold getOrCreateMember
  split <;> rfl

theorem getOrCreate_items (uid : Nat) (un : Option String) (s : Store) :
    ((getOrCreateMember uid un s).2).items = s.items := by
  unfold getOrCreateMember
  split <;> rfl

/-! ### A concrete two-member household, used by witnesses and
counterexamples.  Member 1 runs the wizard; member 2 is the co-member
who receives fan-out notifications. -/

def scenMember1 : Member :=
  { id := "m1", telegram_user_id := 1, name := some "A", household_id := some "h1" }

def scenMember2 : Member :=
  { id := "m2", telegram_user_id := 2, name := some "B", household_id := some "h1" }

def scenHousehold : Household :=
  { id := "h1", name := some "Семья", budget_uah := 0, invite_code := "ABC123" }

def scenStoreBase : Store :=
  { members := [scenMember1, scenMember2], households := [scenHousehold]
  , categories := [], items := [], item_images := [], pending_adds := []
  , nextId := 0, now := 0 }

/-- The scenario store: both members, seeded categories (so that the
category "Вещи" has id 4), no items, no drafts. -/
def scenStore0 : Store := ensureCategories "h1" scenStoreBase

/-- After member 1 runs `/add`: one draft (id "9") at stage `title`. -/
def scenS1 : Store := (addCommand 1 (some "A") scenStore0).1

def scenMsgTitle : Msg := { text := some "Кроссовки", caption := none, photo := [] }

/-- After member 1 sends the title text. -/
def scenS2 : Store := (messageHandler 1 (some "A") scenMsgTitle scenS1).1

/-- After member 1 picks category 4 ("Вещи"); no send failures. -/
def scenR3 : Store × Effects :=
  addcatCallback 1 (some "A") "9" (some 4) (fun _ => false) scenS2

def scenMsgPrice : Msg := { text := some "1500", caption := none, photo := [] }

/-- After member 1 sends the price text "1500", completing the wizard. -/
def scenR4 : Store × Effects := messageHandler 1 (some "A") scenMsgPrice scenR3.1

/-- C2: for every member, at most one live pending draft exists in any
reachable store state; starting a new wizard run (`/add`) first deletes
all prior `pending_adds` rows of that member and then inserts exactly one
new draft at stage `title`, and every other operation preserves the
at-most-one-draft-per-member property (which the reachability statement
quantifies over all update sequences). -/
theorem draft_uniqueness_invariant :
    (∀ ops : List Op, UsersOk ((run ops).pending_adds)) ∧
    (∀ (uid : Nat) (un : Option String) (s : Store),
      ((getOrCreateMember uid un s).1).household_id ≠ none →
      ∃ d : PendingAdd,
        ((addCommand uid un s).1).pending_adds
          = purgeUser uid s.pending_adds ++ [d] ∧
        d.stage = Stage.title ∧ d.user_id = uid) := by
  constructor
  · intro ops
    exact usersOk_foldl ops emptyStore List.Pairwise.nil
  · intro uid un s hhh
    simp only [addCommand]
    split
    · rename_i heq
      exact absurd heq hhh
    · simp only [getOrCreate_pending, getOrCreate_uid]
      exact ⟨_, rfl, rfl, rfl⟩

/-- Witness for `draft_uniqueness_invariant` at the empty run and the
concrete scenario store. -/
theorem draft_uniqueness_invariant_witness :
    UsersOk ((run []).pending_adds) ∧
    ∃ d : PendingAdd,
      ((addCommand 1 (some "A") scenStore0).1).pending_adds
        = purgeUser 1 scenStore0.pending_adds ++ [d] ∧
      d.stage = Stage.title ∧ d.user_id = 1 :=
  ⟨draft_uniqueness_invariant.1 [],
   draft_uniqueness_invariant.2 1 (some "A") scenStore0 (by decide)⟩

end Wishlist

namespace Wishlist

/-- Characterization of a successful title-stage transition: the draft is
updated in place (trimmed title, staged photo, stage `category`) and the
`items` table is untouched. -/
theorem title_stage_spec (uid : Nat) (un : Option String) (msg : Msg) (s : Store)
    (p : PendingAdd)
    (hp : pendingFor s.pending_adds uid = some p)
    (hstage : p.stage = Stage.title)
    (hcmd : isCommandText msg = false)
    (htitle : jsTrim (wizardTitle msg) ≠ "") :
    (messageHandler uid un msg s).1.items = s.items ∧
    (messageHandler uid un msg s).1.pending_adds
      = updatePendingById p.id (titleUpdate (jsTrim (wizardTitle msg)) msg.photo.getLast?)
          s.pending_adds := by
  have hgp := getOrCreate_pending uid un s
  have hgu := getOrCreate_uid uid un s
  have hgi := getOrCreate_items uid un s
  simp only [messageHandler, hgp, hgu, hp, hcmd, hstage, Bool.false_eq_true, if_false,
    ite_true, ite_false, if_true]
  rw [if_neg htitle]
  exact ⟨hgi, rfl⟩

/-- Characterization of the `addcat:` callback on a valid owned draft
with a title: exactly one item row is appended — title from the draft,
the chosen category (`none` when skipped), price 0, status `active` —
and the draft advances to stage `price` linked to the new item. -/
theorem addcat_spec (uid : Nat) (un : Option String) (pid : String)
    (cat : Option Nat) (sf : Nat → Bool) (s : Store) (pend : PendingAdd) (t : String)
    (hfind : s.pending_adds.find? (fun p => decide (p.id = pid)) = some pend)
    (hu : pend.user_id = uid)
    (ht : pend.title = some t) :
    ∃ iid : String,
      (addcatCallback uid un pid cat sf s).1.items
        = s.items ++ [{ id := iid, household_id := pend.household_id
                      , category_id := cat, title := t, price_uah := 0
                      , status := Status.active, created_by := pend.user_id }] ∧
      (addcatCallback uid un pid cat sf s).1.pending_adds
        = updatePendingById pid (advanceToPrice iid) s.pending_adds := by
  have hgp := getOrCreate_pending uid un s
  have hgu := getOrCreate_uid uid un s
  have hgi := getOrCreate_items uid un s
  simp only [addcatCallback, hgp, hgu, hfind, hu, ht, ne_eq, not_true_eq_false,
    if_false, ite_false]
  refine ⟨freshId (getOrCreateMember uid un s).2, ?_, ?_⟩ <;>
    (split <;> split <;> simp [hgi])

/-- The draft `/add` creates in the scenario store. -/
def scenDraft1 : PendingAdd :=
  { id := "9", user_id := 1, household_id := "h1", stage := Stage.title
  , title := none, photo_file_id := none, item_id := none, created_at := 0 }

/-- C1 (amended): the title-stage transition stores the title and image
reference on the draft and advances it to stage `category` WITHOUT
creating any item row; the item row is created at the category-selection
step (`addcat:` callback), with the draft's title, the chosen category
(null when skipped), price 0 and status `active`. -/
theorem title_stage_defers_item_creation :
    (∀ (uid : Nat) (un : Option String) (msg : Msg) (s : Store) (p : PendingAdd),
      pendingFor s.pending_adds uid = some p →
      p.stage = Stage.title →
      isCommandText msg = false →
      jsTrim (wizardTitle msg) ≠ "" →
      (messageHandler uid un msg s).1.items = s.items ∧
      (messageHandler uid un msg s).1.pending_adds
        = updatePendingById p.id
            (titleUpdate (jsTrim (wizardTitle msg)) msg.photo.getLast?) s.pending_adds) ∧
    (∀ (uid : Nat) (un : Option String) (pid : String) (cat : Option Nat)
      (sf : Nat → Bool) (s : Store) (pend : PendingAdd) (t : String),
      s.pending_adds.find? (fun p => decide (p.id = pid)) = some pend →
      pend.user_id = uid →
      pend.title = some t →
      ∃ iid : String,
        (addcatCallback uid un pid cat sf s).1.items
          = s.items ++ [{ id := iid, household_id := pend.household_id
                        , category_id := cat, title := t, price_uah := 0
                        , status := Status.active, created_by := pend.user_id }] ∧
        (addcatCallback uid un pid cat sf s).1.pending_adds
          = updatePendingById pid (advanceToPrice iid) s.pending_adds) :=
  ⟨title_stage_spec, addcat_spec⟩

/-- C1 counterexample: in the concrete scenario, right after the
successful title-stage transition the member's draft is at stage
`category`, but the `items` table is still empty — no item row with the
stored title exists yet, contradicting the claim that the item row is
created at the title step. -/
theorem title_stage_no_item_row :
    pendingFor scenS2.pending_adds 1
      = some { id := "9", user_id := 1, household_id := "h1"
             , stage := Stage.category, title := some "Кроссовки"
             , photo_file_id := none, item_id := none, created_at := 0 } ∧
    scenS2.items = [] := by decide

/-- Witness for `title_stage_defers_item_creation` at the concrete
scenario inputs. -/
theorem title_stage_defers_item_creation_witness :
    ((messageHandler 1 (some "A") scenMsgTitle scenS1).1.items = scenS1.items ∧
     (messageHandler 1 (some "A") scenMsgTitle scenS1).1.pending_adds
       = updatePendingById scenDraft1.id
           (titleUpdate (jsTrim (wizardTitle scenMsgTitle)) scenMsgTitle.photo.getLast?)
           scenS1.pending_adds) ∧
    (∃ iid : String,
      (addcatCallback 1 (some "A") "9" (some 4) (fun _ => false) scenS2).1.items
        = scenS2.items ++ [{ id := iid, household_id := "h1"
                           , category_id := some 4, title := "Кроссовки", price_uah := 0
                           , status := Status.active, created_by := 1 }] ∧
      (addcatCallback 1 (some "A") "9" (some 4) (fun _ => false) scenS2).1.pending_adds
        = updatePendingById "9" (advanceToPrice iid) scenS2.pending_adds) :=
  ⟨title_stage_defers_item_creation.1 1 (some "A") scenMsgTitle scenS1 scenDraft1
      (by decide) (by decide) (by decide) (by decide),
   title_stage_defers_item_creation.2 1 (some "A") "9" (some 4) (fun _ => false) scenS2
      { id := "9", user_id := 1, household_id := "h1", stage := Stage.category
      , title := some "Кроссовки", photo_file_id := none, item_id := none, created_at := 0 }
      "Кроссовки" (by decide) (by decide) (by decide)⟩

end Wishlist

namespace Wishlist

theorem takeWhile_const_true (l : List Member) :
    l.takeWhile (fun _ => true) = l := by
  induction l with
  | nil => rfl
  | cons a l ih => simp [List.takeWhile, ih]

/-- The wizard message handler never performs fan-out: all its branches
reply to the actor only.  In particular the price stage sends no
"price updated" notification to co-members. -/
theorem messageHandler_sent_nil (uid : Nat) (un : Option String) (msg : Msg) (s : Store) :
    (messageHandler uid un msg s).2.sent = [] := by
  simp only [messageHandler]
  repeat' split
  all_goals rfl

/-- With no delivery failures, the `addcat:` callback sends exactly one
"new item" message per co-member row. -/
theorem addcat_sent_spec (uid : Nat) (un : Option String) (pid : String)
    (cat : Option Nat) (s : Store) (pend : PendingAdd) (t : String) (me0 : Member)
    (hmem : s.members.find? (fun m => decide (m.telegram_user_id = uid)) = some me0)
    (hfind : s.pending_adds.find? (fun p => decide (p.id = pid)) = some pend)
    (hu : pend.user_id = uid)
    (ht : pend.title = some t) :
    (addcatCallback uid un pid cat (fun _ => false) s).2.sent
      = (otherHouseholdMembers pend.household_id uid s).map
          (fun m => (m.telegram_user_id,
            "➕ Новая хотелка: <b>" ++ escapeHtml t ++ "</b>")) := by
  have hg : getOrCreateMember uid un s = (me0, s) := by
    unfold getOrCreateMember
    rw [hmem]
  have hgu := getOrCreate_uid uid un s
  have huid : me0.telegram_user_id = uid := by rw [hg] at hgu; exact hgu
  simp only [addcatCallback, hg, hfind, hu, ht, huid, ne_eq, not_true_eq_false,
    if_false, ite_false]
  split
  · rename_i habs
    simp at habs
  · split <;> simp [otherHouseholdMembers, takeWhile_const_true]

/-- C3 (amended): the category step sends exactly one "new item"
notification per co-member (one list entry per co-member row), but the
price step sends NO co-member notification at all — the wizard message
handler, which implements the price step, performs no fan-out in any
branch.  Completing the wizard therefore produces one message per
co-member in total, not two. -/
theorem category_step_single_fanout :
    (∀ (uid : Nat) (un : Option String) (msg : Msg) (s : Store),
      (messageHandler uid un msg s).2.sent = []) ∧
    (∀ (uid : Nat) (un : Option String) (pid : String) (cat : Option Nat)
      (s : Store) (pend : PendingAdd) (t : String) (me0 : Member),
      s.members.find? (fun m => decide (m.telegram_user_id = uid)) = some me0 →
      s.pending_adds.find? (fun p => decide (p.id = pid)) = some pend →
      pend.user_id = uid →
      pend.title = some t →
      (addcatCallback uid un pid cat (fun _ => false) s).2.sent
        = (otherHouseholdMembers pend.household_id uid s).map
            (fun m => (m.telegram_user_id,
              "➕ Новая хотелка: <b>" ++ escapeHtml t ++ "</b>"))) :=
  ⟨messageHandler_sent_nil, addcat_sent_spec⟩

/-- C3 counterexample: in the completed concrete wizard run (title
"Кроссовки" → category 4 → price 1500, co-member 2 present), the category
step sends exactly one notification to the co-member and the price step
sends none — so the co-member receives one message in total, not the
claimed two, and no "price updated" notification exists. -/
theorem price_step_no_fanout :
    scenR3.2.sent = [(2, "➕ Новая хотелка: <b>Кроссовки</b>")] ∧
    scenR4.2.sent = [] ∧
    scenR4.1.items = [{ id := "10", household_id := "h1", category_id := some 4
                      , title := "Кроссовки", price_uah := 1500
                      , status := Status.active, created_by := 1 }] ∧
    otherHouseholdMembers "h1" 1 scenR3.1 = [scenMember2] := by decide

/-- Witness for `category_step_single_fanout` at the concrete scenario. -/
theorem category_step_single_fanout_witness :
    (messageHandler 1 (some "A") scenMsgPrice scenR3.1).2.sent = [] ∧
    (addcatCallback 1 (some "A") "9" (some 4) (fun _ => false) scenS2).2.sent
      = (otherHouseholdMembers "h1" 1 scenS2).map
          (fun m => (m.telegram_user_id,
            "➕ Новая хотелка: <b>" ++ escapeHtml "Кроссовки" ++ "</b>")) :=
  ⟨category_step_single_fanout.1 1 (some "A") scenMsgPrice scenR3.1,
   category_step_single_fanout.2 1 (some "A") "9" (some 4) scenS2
      { id := "9", user_id := 1, household_id := "h1", stage := Stage.category
      , title := some "Кроссовки", photo_file_id := none, item_id := none, created_at := 0 }
      "Кроссовки" scenMember1 (by decide) (by decide) (by decide) (by decide)⟩

end Wishlist

namespace Wishlist

theorem map_takeWhile_extend {α β : Type} (f : β → α) (g : β → Bool) (l : List β) :
    ∃ rest : List α, l.map f = (l.takeWhile g).map f ++ rest :=
  ⟨(l.dropWhile g).map f, by rw [← List.map_append, List.takeWhile_append_dropWhile]⟩

/-- The store writes of the `addcat:` callback are unaffected by
notification failures: all row writes precede the fan-out loop, so the
item creation and draft advance are not rolled back. -/
theorem fanout_failure_store (uid : Nat) (un : Option String) (pid : String)
    (cat : Option Nat) (sf : Nat → Bool) (s : Store) :
    (addcatCallback uid un pid cat sf s).1
      = (addcatCallback uid un pid cat (fun _ => false) s).1 := by
  simp only [addcatCallback]
  repeat' split
  all_goals rfl

/-- With failures, the fan-out loop delivers only a prefix of the
failure-free delivery: the loop stops at the first failing recipient. -/
theorem fanout_failure_sent (uid : Nat) (un : Option String) (pid : String)
    (cat : Option Nat) (sf : Nat → Bool) (s : Store) :
    ∃ rest : List (Nat × String),
      (addcatCallback uid un pid cat (fun _ => false) s).2.sent
        = (addcatCallback uid un pid cat sf s).2.sent ++ rest := by
  simp only [addcatCallback]
  repeat' split
  all_goals first
    | exact ⟨[], rfl⟩
    | (simp only [Bool.not_false, takeWhile_const_true]
       exact map_takeWhile_extend _ _ _)

/-- When some co-member's send fails, the uncaught exception aborts the
rest of the handler: the post-loop message edit and acknowledgment are
skipped (no replies are produced). -/
theorem addcat_abort_replies (uid : Nat) (un : Option String) (pid : String)
    (cat : Option Nat) (sf : Nat → Bool) (s : Store) (pend : PendingAdd) (t : String)
    (me0 : Member)
    (hmem : s.members.find? (fun m => decide (m.telegram_user_id = uid)) = some me0)
    (hfind : s.pending_adds.find? (fun p => decide (p.id = pid)) = some pend)
    (hu : pend.user_id = uid)
    (ht : pend.title = some t)
    (hfail : ((otherHouseholdMembers pend.household_id uid s).any
        (fun m => sf m.telegram_user_id)) = true) :
    (addcatCallback uid un pid cat sf s).2.replies = [] := by
  have hg : getOrCreateMember uid un s = (me0, s) := by
    unfold getOrCreateMember
    rw [hmem]
  have hgu := getOrCreate_uid uid un s
  have huid : me0.telegram_user_id = uid := by rw [hg] at hgu; exact hgu
  simp only [addcatCallback, hg, hfind, hu, ht, huid, ne_eq, not_true_eq_false,
    if_false, ite_false]
  simp only [otherHouseholdMembers] at hfail
  split
  · rfl
  · rename_i hno
    exfalso
    apply hno
    split <;> simpa [otherHouseholdMembers] using hfail

/-- C4 (amended): a delivery failure during the notification fan-out is
NOT caught inside the loop — the exception propagates, the loop stops at
the first failing recipient (the delivered messages are a prefix of the
failure-free delivery), and the rest of the handler (message edit,
acknowledgment) is skipped; only the row writes, which all precede the
loop, survive unaffected (no rollback). -/
theorem fanout_failure_not_isolated :
    (∀ (uid : Nat) (un : Option String) (pid : String) (cat : Option Nat)
      (sf : Nat → Bool) (s : Store),
      (addcatCallback uid un pid cat sf s).1
        = (addcatCallback uid un pid cat (fun _ => false) s).1) ∧
    (∀ (uid : Nat) (un : Option String) (pid : String) (cat : Option Nat)
      (sf : Nat → Bool) (s : Store),
      ∃ rest : List (Nat × String),
        (addcatCallback uid un pid cat (fun _ => false) s).2.sent
          = (addcatCallback uid un pid cat sf s).2.sent ++ rest) ∧
    (∀ (uid : Nat) (un : Option String) (pid : String) (cat : Option Nat)
      (sf : Nat → Bool) (s : Store) (pend : PendingAdd) (t : String) (me0 : Member),
      s.members.find? (fun m => decide (m.telegram_user_id = uid)) = some me0 →
      s.pending_adds.find? (fun p => decide (p.id = pid)) = some pend →
      pend.user_id = uid →
      pend.title = some t →
      ((otherHouseholdMembers pend.household_id uid s).any
        (fun m => sf m.telegram_user_id)) = true →
      (addcatCallback uid un pid cat sf s).2.replies = []) :=
  ⟨fanout_failure_store, fanout_failure_sent, addcat_abort_replies⟩

/-- A third household member, for the fan-out failure counterexample. -/
def c4Member3 : Member :=
  { id := "m3", telegram_user_id := 3, name := some "C", household_id := some "h1" }

def c4Draft : PendingAdd :=
  { id := "d4", user_id := 1, household_id := "h1", stage := Stage.category
  , title := some "Плед", photo_file_id := none, item_id := none, created_at := 0 }

def c4Store : Store :=
  { scenStore0 with members := [scenMember1, scenMember2, c4Member3], pending_adds := [c4Draft] }

/-- The `addcat:` invocation in which the send to member 2 throws. -/
def c4Run : Store × Effects :=
  addcatCallback 1 (some "A") "d4" none (fun u => decide (u = 2)) c4Store

/-- C4 counterexample: with co-members 2 and 3, a delivery failure on
member 2 leaves `sent = []` — member 3, a remaining recipient, is never
notified and the loop does not run to completion — and the post-loop
reply is skipped; yet the item row was still created. -/
theorem fanout_failure_skips_remaining :
    otherHouseholdMembers "h1" 1 c4Store = [scenMember2, c4Member3] ∧
    c4Run.2.sent = [] ∧
    c4Run.2.replies = [] ∧
    c4Run.1.items = [{ id := "9", household_id := "h1", category_id := none
                     , title := "Плед", price_uah := 0, status := Status.active
                     , created_by := 1 }] := by decide

/-- Witness for `fanout_failure_not_isolated` at the concrete failing
scenario. -/
theorem fanout_failure_not_isolated_witness :
    c4Run.1 = (addcatCallback 1 (some "A") "d4" none (fun _ => false) c4Store).1 ∧
    (∃ rest : List (Nat × String),
      (addcatCallback 1 (some "A") "d4" none (fun _ => false) c4Store).2.sent
        = c4Run.2.sent ++ rest) ∧
    c4Run.2.replies = [] :=
  ⟨fanout_failure_not_isolated.1 1 (some "A") "d4" none (fun u => decide (u = 2)) c4Store,
   fanout_failure_not_isolated.2.1 1 (some "A") "d4" none (fun u => decide (u = 2)) c4Store,
   fanout_failure_not_isolated.2.2 1 (some "A") "d4" none (fun u => decide (u = 2)) c4Store
     c4Draft "Плед" scenMember1 (by decide) (by decide) (by decide) (by decide) (by decide)⟩

end Wishlist

namespace Wishlist

/-- A draft at stage `price` linked to item "i5", for the C5 witness. -/
def c5Draft : PendingAdd :=
  { id := "d5", user_id := 1, household_id := "h1", stage := Stage.price
  , title := some "Хотелка", photo_file_id := none, item_id := some "i5", created_at := 0 }

def c5Store : Store :=
  { scenStore0 with pending_adds := [c5Draft] }

def c5Msg : Msg := { text := some "abc", caption := none, photo := [] }

/-- An unparseable price at the price stage only re-prompts: the store is
untouched (beyond lazy member creation) — no draft-stage change, no item
mutation. -/
theorem price_reject_spec (uid : Nat) (un : Option String) (msg : Msg) (s : Store)
    (p : PendingAdd)
    (hp : pendingFor s.pending_adds uid = some p)
    (hstage : p.stage = Stage.price)
    (hitem : p.item_id ≠ none)
    (hcmd : isCommandText msg = false)
    (hbad : toPrice (msg.text.getD "") = none) :
    messageHandler uid un msg s
      = ((getOrCreateMember uid un s).2, replyOnly "Не понял цену. Пример: 1500 или 1,500") := by
  have hgp := getOrCreate_pending uid un s
  have hgu := getOrCreate_uid uid un s
  simp [messageHandler, hgp, hgu, hp, hcmd, hstage, hitem, hbad]

/-- C5 (amended): price parsing accepts space thousands separators and a
decimal comma or dot — "1 500,50" parses to 1500.50 — and "abc" is
rejected, causing a re-prompt with no stage change and no item mutation;
but rejection happens exactly for inputs that do not reduce to a finite
number, NOT to a finite non-negative number: a negative input such as
"-5" is accepted and parses to -5. -/
theorem price_parsing_permissive :
    toPrice "1 500,50" = some ((3001 : ℚ)/2) ∧
    toPrice "abc" = none ∧
    toPrice "-5" = some (-5) ∧
    (∀ (uid : Nat) (un : Option String) (msg : Msg) (s : Store) (p : PendingAdd),
      pendingFor s.pending_adds uid = some p →
      p.stage = Stage.price →
      p.item_id ≠ none →
      isCommandText msg = false →
      toPrice (msg.text.getD "") = none →
      messageHandler uid un msg s
        = ((getOrCreateMember uid un s).2, replyOnly "Не понял цену. Пример: 1500 или 1,500")) :=
  ⟨by decide, by decide, by decide, price_reject_spec⟩

/-- C5 counterexample: "-5" does not reduce to a finite NON-NEGATIVE
number, yet `toPrice` accepts it and returns -5 instead of invalid — so
"invalid exactly when not a finite non-negative number" is false. -/
theorem toPrice_accepts_negative :
    toPrice "-5" = some (-5) ∧ ¬((0 : ℚ) ≤ -5) := by
  refine ⟨by decide, by norm_num⟩

/-- Witness for `price_parsing_permissive` at the concrete draft and the
input "abc". -/
theorem price_parsing_permissive_witness :
    toPrice "1 500,50" = some ((3001 : ℚ)/2) ∧
    messageHandler 1 (some "A") c5Msg c5Store
      = ((getOrCreateMember 1 (some "A") c5Store).2,
         replyOnly "Не понял цену. Пример: 1500 или 1,500") :=
  ⟨price_parsing_permissive.1,
   price_parsing_permissive.2.2.2 1 (some "A") c5Msg c5Store c5Draft (by decide)
     (by decide) (by decide) (by decide) (by decide)⟩

/-- C6 (amended): a message whose TEXT field begins with "/" is never
consumed as wizard input — the handler is a no-op for it at every stage,
open draft or not; but the guard checks only the text field, so a photo
message whose CAPTION begins with "/" is still consumed as a title at the
title stage (see the counterexample). -/
theorem slash_text_falls_through (uid : Nat) (un : Option String) (msg : Msg)
    (s : Store) (h : isCommandText msg = true) :
    messageHandler uid un msg s = ((getOrCreateMember uid un s).2, noEffects) := by
  simp only [messageHandler, h, if_true, ite_true]
  split <;> rfl

/-- A photo message whose caption is the command "/list". -/
def c6Msg : Msg := { text := none, caption := some "/list", photo := ["ph1"] }

/-- C6 counterexample: at the title stage, a photo message whose caption
begins with "/" IS consumed as wizard input: the draft is mutated — its
title becomes "/list", the photo is staged, and the stage advances — so
the claim fails for photo messages with command captions. -/
theorem photo_caption_command_consumed :
    strStartsWith (c6Msg.caption.getD "") "/" = true ∧
    (messageHandler 1 (some "A") c6Msg scenS1).1.pending_adds
      = [{ id := "9", user_id := 1, household_id := "h1", stage := Stage.category
         , title := some "/list", photo_file_id := some "ph1", item_id := none
         , created_at := 0 }] := by decide

/-- A text message that is the command "/list". -/
def c6TextMsg : Msg := { text := some "/list", caption := none, photo := [] }

/-- Witness for `slash_text_falls_through` on a concrete command text
while a draft is open. -/
theorem slash_text_falls_through_witness :
    messageHandler 1 (some "A") c6TextMsg scenS1
      = ((getOrCreateMember 1 (some "A") scenS1).2, noEffects) :=
  slash_text_falls_through 1 (some "A") c6TextMsg scenS1 (by decide)

/-- A corrupted draft: stage `price` with no linked item id. -/
def c7Draft : PendingAdd :=
  { id := "d7", user_id := 1, household_id := "h1", stage := Stage.price
  , title := some "Хотелка", photo_file_id := none, item_id := none, created_at := 0 }

def c7Store : Store :=
  { scenStore0 with pending_adds := [c7Draft] }

/-- C7 (amended): when the draft is at stage `price` but its linked item
id is missing, the handler silently ignores the input: no item is
mutated, created or guessed — but the draft is NOT discarded and no
restart instruction is sent; the handler is a complete no-op. -/
theorem price_stage_missing_item_ignored (uid : Nat) (un : Option String)
    (msg : Msg) (s : Store) (p : PendingAdd)
    (hp : pendingFor s.pending_adds uid = some p)
    (hstage : p.stage = Stage.price)
    (hitem : p.item_id = none)
    (hcmd : isCommandText msg = false) :
    messageHandler uid un msg s = ((getOrCreateMember uid un s).2, noEffects) := by
  have hgp := getOrCreate_pending uid un s
  have hgu := getOrCreate_uid uid un s
  simp [messageHandler, hgp, hgu, hp, hcmd, hstage, hitem]

/-- C7 counterexample: on a price-stage draft with missing item id, the
next wizard input leaves the store completely unchanged — the corrupted
draft is still present afterwards — and produces no reply, so the user is
never told to restart and the draft is not discarded. -/
theorem missing_item_draft_not_discarded :
    messageHandler 1 (some "A") scenMsgPrice c7Store = (c7Store, noEffects) ∧
    c7Store.pending_adds = [c7Draft] := by decide

/-- Witness for `price_stage_missing_item_ignored` at the corrupted
draft and the input "1500". -/
theorem price_stage_missing_item_ignored_witness :
    messageHandler 1 (some "A") scenMsgPrice c7Store
      = ((getOrCreateMember 1 (some "A") c7Store).2, noEffects) :=
  price_stage_missing_item_ignored 1 (some "A") scenMsgPrice c7Store c7Draft
    (by decide) (by decide) (by decide) (by decide)

end Wishlist

namespace Wishlist

theorem statusToggle_invol (st : Status) (h : st ≠ Status.deleted) :
    statusToggle (statusToggle st) = st := by
  cases st <;> simp_all [statusToggle]

/-- Toggling an item whose status is not `deleted` twice restores the
items table exactly (the id is assumed unique among the rows). -/
theorem toggle_toggle_items (s : Store) (id : String) (it : Item)
    (hfind : s.items.find? (fun i => decide (i.id = id)) = some it)
    (hst : it.status ≠ Status.deleted)
    (huniq : ∀ j ∈ s.items, j.id = id → j = it) :
    (toggleCallback id (toggleCallback id s).1).1.items = s.items := by
  have hpred : ((fun i : Item => decide (i.id = id)) ∘
      (fun i : Item => if i.id = id then { i with status := statusToggle it.status } else i))
      = (fun i : Item => decide (i.id = id)) := by
    funext i
    by_cases hi : i.id = id <;> simp [hi]
  simp only [toggleCallback, hfind]
  rw [List.find?_map, hpred, hfind]
  simp only [Option.map_some']
  rw [List.map_map]
  refine Eq.trans (List.map_congr_left ?_) (List.map_id _)
  intro j hj
  by_cases hji : j.id = id
  · have hj2 := huniq j hj hji
    subst hj2
    simp [Function.comp, hji, statusToggle_invol _ hst]
    cases j
    simp_all
  · simp [Function.comp, hji]

/-- The `del:` callback is a soft delete: the row count is unchanged, all
rows with the id end with status `deleted`, and no row with the id
appears in the `/list` selection afterwards. -/
theorem del_spec (id : String) (s : Store) :
    (delCallback id s).1.items.length = s.items.length ∧
    (∀ it' ∈ (delCallback id s).1.items, it'.id = id → it'.status = Status.deleted) ∧
    (∀ (hid : String) (it' : Item), it' ∈ listRows (delCallback id s).1 hid → it'.id ≠ id) := by
  have h2 : ∀ it' ∈ (delCallback id s).1.items, it'.id = id → it'.status = Status.deleted := by
    intro it' hmem hid'
    simp only [delCallback, List.mem_map] at hmem
    obtain ⟨j, hj, hje⟩ := hmem
    by_cases hji : j.id = id
    · rw [← hje]
      simp [hji]
    · rw [← hje] at hid'
      simp only [if_neg hji] at hid'
      exact absurd hid' hji
  refine ⟨by simp [delCallback], h2, ?_⟩
  intro hid it' hmem hidEq
  simp only [listRows, List.mem_reverse, List.mem_filter, decide_eq_true_eq] at hmem
  exact hmem.2.2 (h2 it' hmem.1 hidEq)

/-- C8 (amended): toggling an item whose status is `active` or `done`
twice restores the items table (for `deleted` it does not, see the
counterexample); the delete action sets the status to `deleted` while
keeping the row physically present (row count unchanged), and rows with
that id no longer appear in the `/list` selection. -/
theorem toggle_involution_and_soft_delete :
    (∀ (s : Store) (id : String) (it : Item),
      s.items.find? (fun i => decide (i.id = id)) = some it →
      it.status ≠ Status.deleted →
      (∀ j ∈ s.items, j.id = id → j = it) →
      (toggleCallback id (toggleCallback id s).1).1.items = s.items) ∧
    (∀ (id : String) (s : Store),
      (delCallback id s).1.items.length = s.items.length ∧
      (∀ it' ∈ (delCallback id s).1.items, it'.id = id → it'.status = Status.deleted) ∧
      (∀ (hid : String) (it' : Item), it' ∈ listRows (delCallback id s).1 hid → it'.id ≠ id)) :=
  ⟨toggle_toggle_items, del_spec⟩

/-- A soft-deleted item, to refute toggle-involution on it. -/
def c8Item : Item :=
  { id := "i8", household_id := "h1", category_id := none, title := "Шарф"
  , price_uah := 0, status := Status.deleted, created_by := 1 }

def c8Store : Store :=
  { scenStore0 with items := [c8Item] }

/-- C8 counterexample: toggling a `deleted` item twice yields status
`active`, not the original `deleted` — `toggle:` maps any non-`done`
status to `done` and back to `active`, so "for every item" fails. -/
theorem toggle_deleted_item_not_restored :
    c8Item.status = Status.deleted ∧
    (toggleCallback "i8" (toggleCallback "i8" c8Store).1).1.items
      = [{ id := "i8", household_id := "h1", category_id := none, title := "Шарф"
         , price_uah := 0, status := Status.active, created_by := 1 }] ∧
    Status.active ≠ Status.deleted := by decide

/-- An active item, for the C8 witness. -/
def c8bItem : Item :=
  { id := "i9", household_id := "h1", category_id := none, title := "Часы"
  , price_uah := 0, status := Status.active, created_by := 1 }

def c8bStore : Store :=
  { scenStore0 with items := [c8bItem] }

/-- Witness for `toggle_involution_and_soft_delete` on an active item. -/
theorem toggle_involution_and_soft_delete_witness :
    (toggleCallback "i9" (toggleCallback "i9" c8bStore).1).1.items = c8bStore.items ∧
    (delCallback "i9" c8bStore).1.items.length = c8bStore.items.length :=
  ⟨toggle_involution_and_soft_delete.1 c8bStore "i9" c8bItem (by decide) (by decide)
      (by decide),
   (toggle_involution_and_soft_delete.2 "i9" c8bStore).1⟩

end Wishlist

namespace Wishlist

theorem seedCats_filter (hid : String) (base : Nat) (l : List (String × String)) :
    (seedCats hid base l).filter (fun c => decide (c.household_id = hid))
      = seedCats hid base l := by
  induction l generalizing base with
  | nil => rfl
  | cons a rest ih =>
      obtain ⟨n, sl⟩ := a
      simp [seedCats, ih]

theorem seedCats_map (hid : String) (base : Nat) (l : List (String × String)) :
    (seedCats hid base l).map (fun c => (c.name, c.slug)) = l := by
  induction l generalizing base with
  | nil => rfl
  | cons a rest ih =>
      obtain ⟨n, sl⟩ := a
      simp [seedCats, ih]

/-- On a household with no category rows, `ensureCategories` seeds
exactly the default list. -/
theorem ensureCategories_seeds (hid : String) (s : Store)
    (hempty : s.categories.filter (fun c => decide (c.household_id = hid)) = []) :
    ((ensureCategories hid s).categories.filter
        (fun c => decide (c.household_id = hid))).map (fun c => (c.name, c.slug))
      = DEFAULT_CATEGORIES := by
  have hany : (s.categories.any (fun c => decide (c.household_id = hid))) = false := by
    rw [List.any_eq_false]
    intro c hc
    have := List.filter_eq_nil_iff.mp hempty c hc
    simpa using this
  simp only [ensureCategories, hany, Bool.false_eq_true, if_false, ite_false]
  rw [List.filter_append, hempty, List.nil_append, seedCats_filter, seedCats_map]

/-- A second `ensureCategories` call for the same household changes
nothing. -/
theorem ensureCategories_idem (hid : String) (s : Store) :
    ensureCategories hid (ensureCategories hid s) = ensureCategories hid s := by
  by_cases h : (s.categories.any (fun c => decide (c.household_id = hid))) = true
  · simp [ensureCategories, h]
  · rw [Bool.not_eq_true] at h
    simp only [ensureCategories, h, Bool.false_eq_true, if_false, ite_false]
    rw [if_pos]
    rw [List.any_append]
    have : (seedCats hid s.nextId DEFAULT_CATEGORIES).any
        (fun c => decide (c.household_id = hid)) = true := by
      simp [DEFAULT_CATEGORIES, seedCats]
    simp [this]

/-- `createHousehold` on a member without a household ends with exactly
the default categories for the new household. -/
theorem createHousehold_seeds (uid : Nat) (un hn : Option String) (inv : String)
    (s : Store)
    (hno : ((getOrCreateMember uid un s).1).household_id = none)
    (hfresh : s.categories.filter
        (fun c => decide (c.household_id = freshId (getOrCreateMember uid un s).2)) = []) :
    (((createHouseholdCmd uid un hn inv s).1).categories.filter
        (fun c => decide (c.household_id = freshId (getOrCreateMember uid un s).2))).map
      (fun c => (c.name, c.slug)) = DEFAULT_CATEGORIES := by
  have hgc := getOrCreate_categories uid un s
  simp only [createHouseholdCmd, hno]
  apply ensureCategories_seeds
  simpa [hgc] using hfresh

/-- C9: seeding default categories is idempotent — the first
`ensureCategories` call for a household with no category rows inserts
exactly the 9 defaults (name/slug list equal to `DEFAULT_CATEGORIES`,
hence 9 rows), any later call for the same household inserts nothing,
and `createHousehold` always ends with exactly the 9 defaults for the
fresh household. -/
theorem default_categories_seeded_once :
    (∀ (hid : String) (s : Store),
      s.categories.filter (fun c => decide (c.household_id = hid)) = [] →
      ((ensureCategories hid s).categories.filter
          (fun c => decide (c.household_id = hid))).map (fun c => (c.name, c.slug))
        = DEFAULT_CATEGORIES ∧
      ((ensureCategories hid s).categories.filter
          (fun c => decide (c.household_id = hid))).length = 9) ∧
    (∀ (hid : String) (s : Store),
      ensureCategories hid (ensureCategories hid s) = ensureCategories hid s) ∧
    (∀ (uid : Nat) (un hn : Option String) (inv : String) (s : Store),
      ((getOrCreateMember uid un s).1).household_id = none →
      s.categories.filter
        (fun c => decide (c.household_id = freshId (getOrCreateMember uid un s).2)) = [] →
      (((createHouseholdCmd uid un hn inv s).1).categories.filter
          (fun c => decide (c.household_id = freshId (getOrCreateMember uid un s).2))).map
        (fun c => (c.name, c.slug)) = DEFAULT_CATEGORIES) := by
  refine ⟨?_, ensureCategories_idem, createHousehold_seeds⟩
  intro hid s h
  refine ⟨ensureCategories_seeds hid s h, ?_⟩
  have h2 := congrArg List.length (ensureCategories_seeds hid s h)
  simpa using h2

/-- Witness for `default_categories_seeded_once`: seeding the scenario
base store and creating a household from the empty store. -/
theorem default_categories_seeded_once_witness :
    (((ensureCategories "h1" scenStoreBase).categories.filter
        (fun c => decide (c.household_id = "h1"))).map (fun c => (c.name, c.slug))
      = DEFAULT_CATEGORIES ∧
     ((ensureCategories "h1" scenStoreBase).categories.filter
        (fun c => decide (c.household_id = "h1"))).length = 9) ∧
    ensureCategories "h1" (ensureCategories "h1" scenStoreBase)
      = ensureCategories "h1" scenStoreBase ∧
    (((createHouseholdCmd 7 (some "N") (some "Семья") "CODE42" emptyStore).1).categories.filter
        (fun c => decide (c.household_id
          = freshId (getOrCreateMember 7 (some "N") emptyStore).2))).map
      (fun c => (c.name, c.slug)) = DEFAULT_CATEGORIES :=
  ⟨default_categories_seeded_once.1 "h1" scenStoreBase (by decide),
   default_categories_seeded_once.2.1 "h1" scenStoreBase,
   default_categories_seeded_once.2.2 7 (some "N") (some "Семья") "CODE42" emptyStore
     (by decide) (by decide)⟩

end Wishlist

namespace Wishlist

/-- The five HTML entities `escapeHtml` emits, as character lists. -/
def entList : List (List Char) :=
  [ ['&', 'a', 'm', 'p', ';']
  , ['&', 'l', 't', ';']
  , ['&', 'g', 't', ';']
  , ['&', 'q', 'u', 'o', 't', ';']
  , ['&', '#', '3', '9', ';'] ]

/-- The characters that must never appear literally in escaped output:
`< > " '`. -/
def badChars : List Char := ['<', '>', '"', aposChar]

/-- Every `&` in the character list begins one of the five entities. -/
def AmpOk (l : List Char) : Prop :=
  ∀ i : Nat, (l.drop i).head? = some '&' →
    ∃ e ∈ entList, ∃ t, l.drop i = e ++ t

/-- `AmpOk` restricted to positions inside one replacement block. -/
def BlockSafe (b : List Char) : Prop :=
  ∀ i : Nat, i < b.length → (b.drop i).head? = some '&' →
    ∃ e ∈ entList, ∃ t, b.drop i = e ++ t

theorem ampOk_nil : AmpOk [] := by
  intro i h
  simp at h

theorem blockSafe_entity (e : List Char) (he : e ∈ entList)
    (hhead : ∀ i, i < e.length → 0 < i → ¬((e.drop i).head? = some '&')) :
    BlockSafe e := by
  intro i hi hh
  match i with
  | 0 => exact ⟨e, he, [], by simp⟩
  | Nat.succ j => exact absurd hh (hhead (j + 1) hi (Nat.succ_pos j))

theorem blockSafe_single (c : Char) (hc : c ≠ '&') : BlockSafe [c] := by
  intro i hi hh
  match i with
  | 0 =>
      simp at hh
      exact absurd hh hc
  | Nat.succ j => simp at hi

theorem ampOk_append (b l : List Char) (hb : BlockSafe b) (hl : AmpOk l) :
    AmpOk (b ++ l) := by
  intro i hh
  rw [List.drop_append_eq_append_drop] at hh ⊢
  by_cases hi : i < b.length
  · have hsub : i - b.length = 0 := Nat.sub_eq_zero_of_le (le_of_lt hi)
    rw [hsub, List.drop_zero] at hh ⊢
    have hbd : b.drop i ≠ [] := by
      rw [Ne, List.drop_eq_nil_iff]
      omega
    rw [List.head?_append] at hh
    have hh2 : (b.drop i).head? = some '&' := by
      cases hcase : (b.drop i).head? with
      | none => exact absurd (List.head?_eq_none_iff.mp hcase) hbd
      | some x =>
          rw [hcase] at hh
          simpa using hh
    obtain ⟨e, he, t, ht⟩ := hb i hi hh2
    exact ⟨e, he, t ++ l, by rw [ht, List.append_assoc]⟩
  · have hnil : b.drop i = [] := List.drop_eq_nil_iff.mpr (by omega)
    rw [hnil, List.nil_append] at hh ⊢
    obtain ⟨e, he, t, ht⟩ := hl _ hh
    exact ⟨e, he, t, ht⟩

theorem blockSafe_escChar (c : Char) : BlockSafe (escChar c) := by
  unfold escChar
  split
  · exact blockSafe_entity _ (by simp [entList]) (by decide)
  · split
    · exact blockSafe_entity _ (by simp [entList]) (by decide)
    · split
      · exact blockSafe_entity _ (by simp [entList]) (by decide)
      · split
        · exact blockSafe_entity _ (by simp [entList]) (by decide)
        · split
          · exact blockSafe_entity _ (by simp [entList]) (by decide)
          · rename_i hamp _ _ _ _
            exact blockSafe_single c hamp

theorem escChar_no_bad (c x : Char) (hx : x ∈ escChar c) : x ∉ badChars := by
  unfold escChar at hx
  split at hx
  · fin_cases hx <;> decide
  · split at hx
    · fin_cases hx <;> decide
    · split at hx
      · fin_cases hx <;> decide
      · split at hx
        · fin_cases hx <;> decide
        · split at hx
          · fin_cases hx <;> decide
          · rename_i h1 h2 h3 h4 h5
            simp at hx
            subst hx
            simp [badChars]
            exact ⟨h2, h3, h4, h5⟩

theorem escList_ampOk (cs : List Char) : AmpOk (cs.flatMap escChar) := by
  induction cs with
  | nil => exact ampOk_nil
  | cons c cs ih =>
      have h := ampOk_append (escChar c) (cs.flatMap escChar) (blockSafe_escChar c) ih
      simpa [List.flatMap_cons] using h

theorem escList_no_bad (cs : List Char) :
    ∀ x ∈ cs.flatMap escChar, x ∉ badChars := by
  induction cs with
  | nil => simp
  | cons c cs ih =>
      intro x hx
      rw [List.flatMap_cons, List.mem_append] at hx
      cases hx with
      | inl h => exact escChar_no_bad c x h
      | inr h => exact ih x h

/-- C10: for every input string, `escapeHtml`'s output contains no
literal `<`, `>`, `"` or apostrophe; every `&` in the output begins one
of the entities `&amp; &lt; &gt; &quot; &#39;`; and `buildItemLine`
interpolates item titles only through `escapeHtml` (its output decomposes
around `escapeHtml it.title`), so user-supplied titles cannot inject
markup. -/
theorem escapeHtml_sanitizes :
    (∀ (s : String) (x : Char), x ∈ (escapeHtml s).toList → x ∉ badChars) ∧
    (∀ s : String, AmpOk (escapeHtml s).toList) ∧
    (∀ it : Item, ∃ pre post : String,
      buildItemLine it = pre ++ (escapeHtml it.title ++ post)) := by
  refine ⟨fun s x hx => escList_no_bad s.toList x hx, fun s => escList_ampOk s.toList, ?_⟩
  intro it
  by_cases hst : it.status = Status.done
  · refine ⟨"• " ++ "<s>",
      "</s>" ++ ((if it.price_uah ≠ 0 then " — " ++ fmtMoney it.price_uah else "")
        ++ (" (id:" ++ strTake it.id 6 ++ ")")), ?_⟩
    simp [buildItemLine, hst, String.append_assoc]
    rfl
  · refine ⟨"• ",
      (if it.price_uah ≠ 0 then " — " ++ fmtMoney it.price_uah else "")
        ++ (" (id:" ++ strTake it.id 6 ++ ")"), ?_⟩
    simp [buildItemLine, hst, String.append_assoc]

/-- Witness for `escapeHtml_sanitizes` at a concrete string and item. -/
theorem escapeHtml_sanitizes_witness :
    ('a' ∉ badChars) ∧
    AmpOk (escapeHtml "a<b&c").toList ∧
    (∃ pre post : String, buildItemLine c8bItem = pre ++ (escapeHtml c8bItem.title ++ post)) :=
  ⟨escapeHtml_sanitizes.1 "a<b&c" 'a' (by decide),
   escapeHtml_sanitizes.2.1 "a<b&c",
   escapeHtml_sanitizes.2.2 c8bItem⟩

end Wishlist
